import Mathlib

/-!
Verification of the `port scan` probing engine (`src/port_scan.rs`) of the
nu_plugin_port_scan repository.

The Rust code is shallowly embedded as follows.

* `Value` mirrors the `nu_protocol::Value` variants the code inspects
  (`String`, `Int`, `Duration`, anything else).
* The network is an oracle: a `Conn` records what the environment does on an
  established TCP connection (whether `write_all` succeeds, whether
  `set_read_timeout` succeeds, and the sequence of items produced by
  `stream.bytes()` before end-of-stream).  `Option Conn` is the outcome of
  `TcpStream::connect_timeout` (`none` = refusal / unreachable / timeout).
* Machine integers are `Nat`/`Int`; `u128 -> i64` conversion and the
  `char as u8` cast carry their explicit bounds.
-/

namespace PortScan

/-- Nu values, restricted to the variants `port_scan.rs` matches on. -/
inductive Value where
  | string (val : String)
  | int (val : Int)
  | duration (val : Int)
  | other
deriving DecidableEq

/-- One item yielded by the `std::io::Read::bytes` iterator of a `TcpStream`:
either a received byte, or an I/O error (read timeout / deadline expiry /
reset).  The iterator ends (EOF, peer closed the stream) when the modelled
list is exhausted. -/
inductive ReadItem where
  | byte (b : Nat)
  | ioError
deriving DecidableEq

/-- Environment oracle for one established TCP connection. -/
structure Conn where
  /-- does `stream.write_all(&data)` return `Ok`? -/
  writeOk : Bool
  /-- does `stream.set_read_timeout(Some(duration))` return `Ok`? -/
  setReadTimeoutOk : Bool
  /-- what `stream.bytes()` yields until end-of-stream -/
  incoming : List ReadItem
deriving DecidableEq

/-- `nu_protocol::LabeledError`, restricted to the fields the code sets. -/
structure LabeledError where
  msg : String
  label : String
deriving DecidableEq

/-- The record produced by `PortScan::run` on success. -/
structure ResultRecord where
  address : String
  port : Int
  result : String
  is_open : Bool
  elapsed : Int
deriving DecidableEq

/-- The arguments of one invocation: the two required positionals and the
three named flags (`--timeout`, `--send`, `--receive-byte-count`). -/
structure CallArgs where
  target : Value
  port : Value
  timeoutFlag : Option Value
  sendFlag : Option Value
  receiveFlag : Option Value

/-- `const DEFAULT_TIMEOUT: i64 = 60000000000;` (nanoseconds). -/
def DEFAULT_TIMEOUT : Int := 60000000000

/-- `Value::as_duration`: `Ok` exactly on the `Duration` variant. -/
def as_duration (v : Value) : Except Unit Int :=
  match v with
  | .duration d => .ok d
  | _ => .error ()

/-- `Value::as_str`: `Some` exactly on the `String` variant. -/
def as_str (v : Value) : Option String :=
  match v with
  | .string s => some s
  | _ => none

/-- `Value::as_int`: `Some` exactly on the `Int` variant. -/
def as_int (v : Value) : Option Int :=
  match v with
  | .int i => some i
  | _ => none

/-- The `timeout` computation of `PortScan::scan`:
`call.get_flag_value("timeout")` then `as_duration().unwrap_or_else(|_| DEFAULT_TIMEOUT)`,
absent flag also gives `DEFAULT_TIMEOUT`. -/
def timeoutOf (timeoutFlag : Option Value) : Int :=
  match timeoutFlag with
  | some dur =>
    match as_duration dur with
    | .ok v => v
    | .error _ => DEFAULT_TIMEOUT
  | none => DEFAULT_TIMEOUT

/-- `Duration::from_nanos(timeout.unsigned_abs())`: the effective probe
duration in nanoseconds. -/
def durationNanos (timeoutFlag : Option Value) : Nat :=
  (timeoutOf timeoutFlag).natAbs

/-- `val.chars().map(|i| i as u8).collect()`: each `char` is cast to `u8`,
truncating the Unicode scalar value to its low 8 bits. -/
def sendBytes (val : String) : List Nat :=
  val.toList.map fun c => c.toNat % 256

/-- The `send_data` computation of `PortScan::scan`: only a `String` flag
value produces a payload. -/
def sendDataOf (sendFlag : Option Value) : Option (List Nat) :=
  match sendFlag with
  | some (.string val) => some (sendBytes val)
  | _ => none

/-- The `receive_count` computation of `PortScan::scan`:
`val.unsigned_abs()` of an `Int` flag value, `0` otherwise. -/
def receiveCountOf (receiveFlag : Option Value) : Nat :=
  match receiveFlag with
  | some (.int val) => val.natAbs
  | _ => 0

/-- `stream.bytes().take(n).collect::<Result<Vec<u8>, std::io::Error>>()`:
collects up to `n` items, stopping with `none` at the first I/O error item;
end-of-stream before `n` items still yields `some` (a short vector). -/
def collectTake : Nat → List ReadItem → Option (List Nat)
  | 0, _ => some []
  | _ + 1, [] => some []
  | n + 1, ReadItem.byte b :: rest =>
    match collectTake n rest with
    | some bs => some (b :: bs)
    | none => none
  | _ + 1, ReadItem.ioError :: _ => none

/-- `PortScan::check_connection`: connect, optionally write the payload,
set the read timeout, optionally read `receive_byte_count` bytes.  Every
failure is an early `return false`. -/
def check_connection (net : Option Conn) (_duration : Nat)
    (send_data : Option (List Nat)) (receive_byte_count : Nat) : Bool :=
  match net with
  | some stream =>
    let writeFailed : Bool :=
      match send_data with
      | some _data => !stream.writeOk
      | none => false
    if writeFailed then false
    else if !stream.setReadTimeoutOk then false
    else if receive_byte_count != 0 then
      match collectTake receive_byte_count stream.incoming with
      | some _buffer => true
      | none => false
    else true
  | none => false

/-- `PortScan::scan`: extracts the flags, runs `check_connection`, measures
elapsed wall-clock time (supplied here by the environment as
`elapsedNanos`), and always returns `Ok`. -/
def scan (timeoutFlag sendFlag receiveFlag : Option Value)
    (net : Option Conn) (elapsedNanos : Nat) :
    Except LabeledError (Bool × Nat) :=
  let timeout : Int := timeoutOf timeoutFlag
  let duration : Nat := timeout.natAbs
  let send_data : Option (List Nat) := sendDataOf sendFlag
  let receive_count : Nat := receiveCountOf receiveFlag
  let is_open : Bool := check_connection net duration send_data receive_count
  Except.ok (is_open, elapsedNanos)

end PortScan

/-!
Embedding of the Rust standard-library address parser (`core::net::parser`)
that `PortScan::run` invokes through
`format!("{}:{}", real_target, real_port).parse::<SocketAddr>()`, together
with the `Display` implementations used to print addresses back.  Parsers
work on `List Char` and return the parsed value together with the unconsumed
remainder; `none` models a parse failure (which in Rust resets the cursor,
so a failed sub-parser consumes nothing).
-/

namespace RustNet

/-- `char::to_digit(10)`. -/
def digitVal (c : Char) : Option Nat :=
  if 48 ≤ c.toNat ∧ c.toNat ≤ 57 then some (c.toNat - 48) else none

/-- `char::to_digit(16)`. -/
def hexVal (c : Char) : Option Nat :=
  if 48 ≤ c.toNat ∧ c.toNat ≤ 57 then some (c.toNat - 48)
  else if 97 ≤ c.toNat ∧ c.toNat ≤ 102 then some (c.toNat - 87)
  else if 65 ≤ c.toNat ∧ c.toNat ≤ 70 then some (c.toNat - 55)
  else none

/-- Greedily consume the maximal prefix of characters accepted by `f`,
returning their digit values and the remainder. -/
def spanMap (f : Char → Option Nat) : List Char → List Nat × List Char
  | [] => ([], [])
  | c :: cs =>
    match f c with
    | some d => (d :: (spanMap f cs).1, (spanMap f cs).2)
    | none => ([], c :: cs)

/-- Horner evaluation of a big-endian digit list. -/
def valOf (radix : Nat) (ds : List Nat) : Nat :=
  ds.foldl (fun a d => a * radix + d) 0

/-- The `max_digits` check of `Parser::read_number`. -/
def digitLimitExceeded (maxDigits : Option Nat) (len : Nat) : Bool :=
  match maxDigits with
  | some m => decide (m < len)
  | none => false

/-- The `allow_zero_prefix` check of `Parser::read_number`. -/
def leadingZeroViolated (allowLeadingZero : Bool) (ds : List Nat) : Bool :=
  !allowLeadingZero && decide (ds.head? = some 0) && decide (1 < ds.length)

/-- `Parser::read_number::<T>(radix, max_digits, allow_zero_prefix)`:
reads the maximal digit prefix; fails on an empty prefix, on more than
`max_digits` digits, on a forbidden leading zero, or when the checked
`T`-arithmetic overflows (`maxVal` is `T::MAX`). -/
def read_number (f : Char → Option Nat) (radix : Nat) (maxDigits : Option Nat)
    (allowLeadingZero : Bool) (maxVal : Nat) (s : List Char) :
    Option (Nat × List Char) :=
  if (spanMap f s).1.isEmpty then none
  else if digitLimitExceeded maxDigits (spanMap f s).1.length then none
  else if leadingZeroViolated allowLeadingZero (spanMap f s).1 then none
  else if decide (maxVal < valOf radix (spanMap f s).1) then none
  else some (valOf radix (spanMap f s).1, (spanMap f s).2)

/-- An IPv4 group: `read_number::<u8>(10, Some(3), false)`. -/
def readU8 : List Char → Option (Nat × List Char) :=
  read_number digitVal 10 (some 3) false 255

/-- A port: `read_number::<u16>(10, None, true)`. -/
def readPort : List Char → Option (Nat × List Char) :=
  read_number digitVal 10 none true 65535

/-- An IPv6 group: `read_number::<u16>(16, Some(4), true)`. -/
def readHexU16 : List Char → Option (Nat × List Char) :=
  read_number hexVal 16 (some 4) true 65535

/-- A scope id: `read_number::<u32>(10, None, true)`. -/
def readScopeId : List Char → Option (Nat × List Char) :=
  read_number digitVal 10 none true 4294967295

/-- `Parser::read_given_char`. -/
def expectChar (c : Char) : List Char → Option (List Char)
  | x :: r => if x = c then some r else none
  | [] => none

/-- An IPv4 address, four octets. -/
structure Ipv4 where
  a : Nat
  b : Nat
  c : Nat
  d : Nat
deriving DecidableEq

/-- `Parser::read_ipv4_addr`: four `u8` groups separated by `'.'` (each
failing step propagates `none`, like Rust's `?`). -/
def readIpv4 (s : List Char) : Option (Ipv4 × List Char) :=
  (readU8 s).bind fun p1 =>
  (expectChar '.' p1.2).bind fun s2 =>
  (readU8 s2).bind fun p2 =>
  (expectChar '.' p2.2).bind fun s4 =>
  (readU8 s4).bind fun p3 =>
  (expectChar '.' p3.2).bind fun s6 =>
  (readU8 s6).bind fun p4 =>
  some (⟨p1.1, p2.1, p3.1, p4.1⟩, p4.2)

/-- `Parser::read_separator(':', i, inner)`: groups after the first are
preceded by `':'`. -/
def readSep {α : Type} (i : Nat) (inner : List Char → Option (α × List Char))
    (s : List Char) : Option (α × List Char) :=
  if i = 0 then inner s
  else
    match expectChar ':' s with
    | some r => inner r
    | none => none

/-- The `read_groups` helper of `Parser::read_ipv6_addr`.  `rem` is the
number of group slots still free, `i` the index of the next group.  Returns
the groups read, whether they ended in an embedded IPv4 address, and the
remainder.  An embedded IPv4 address is only attempted when at least two
slots are free. -/
def readGroups : Nat → Nat → List Char → List Nat × Bool × List Char
  | 0, _, s => ([], false, s)
  | rem + 1, i, s =>
    match (if 1 ≤ rem then readSep i readIpv4 s else none) with
    | some (ip, r) => ([ip.a * 256 + ip.b, ip.c * 256 + ip.d], true, r)
    | none =>
      match readSep i readHexU16 s with
      | some (g, r) =>
        match readGroups rem (i + 1) r with
        | (gs, f, rr) => (g :: gs, f, rr)
      | none => ([], false, s)

/-- `Parser::read_ipv6_addr`: up to 8 groups, a `::` filling the gap with
zero groups when fewer than 8 are given before it; an embedded trailing
IPv4 address is not allowed before the `::`.  The result is the list of the
8 16-bit groups. -/
def readIpv6 (s : List Char) : Option (List Nat × List Char) :=
  match readGroups 8 0 s with
  | (head, headIpv4, r) =>
    if head.length = 8 then some (head, r)
    else if headIpv4 then none
    else
      match r with
      | ':' :: ':' :: r2 =>
        match readGroups (8 - (head.length + 1)) 0 r2 with
        | (tail, _, r3) =>
          some (head ++ List.replicate (8 - head.length - tail.length) 0 ++ tail, r3)
      | _ => none

/-- A parsed `IpAddr` literal. -/
inductive IpAddrLit where
  | v4 (ip : Ipv4)
  | v6 (groups : List Nat)
deriving DecidableEq

/-- `Parser::read_ip_addr`: IPv4 first, IPv6 otherwise. -/
def readIpAddr (s : List Char) : Option (IpAddrLit × List Char) :=
  match readIpv4 s with
  | some (ip, r) => some (.v4 ip, r)
  | none =>
    match readIpv6 s with
    | some (gs, r) => some (.v6 gs, r)
    | none => none

/-- `IpAddr::from_str`: the whole string must be consumed. -/
def parseIpAddr (s : String) : Option IpAddrLit :=
  match readIpAddr s.data with
  | some (ip, []) => some ip
  | _ => none

/-- A parsed `SocketAddr`. -/
inductive SockAddr where
  | v4 (ip : Ipv4) (port : Nat)
  | v6 (groups : List Nat) (port : Nat) (scope : Nat)
deriving DecidableEq

/-- `Parser::read_socket_addr_v4`: `ipv4:port`. -/
def readSocketV4 (s : List Char) : Option (SockAddr × List Char) :=
  (readIpv4 s).bind fun p1 =>
  (expectChar ':' p1.2).bind fun s2 =>
  (readPort s2).bind fun p2 =>
  some (.v4 p1.1 p2.1, p2.2)

/-- `Parser::read_socket_addr_v6`: `[ipv6]:port` with an optional
`%scope_id` inside the brackets. -/
def readSocketV6 (s : List Char) : Option (SockAddr × List Char) :=
  match expectChar '[' s with
  | none => none
  | some s1 =>
    match readIpv6 s1 with
    | none => none
    | some (gs, s2) =>
      let scopePair : Nat × List Char :=
        match s2 with
        | '%' :: s3 =>
          match readScopeId s3 with
          | some (v, r) => (v, r)
          | none => (0, '%' :: s3)
        | _ => (0, s2)
      match expectChar ']' scopePair.2 with
      | none => none
      | some s4 =>
        match expectChar ':' s4 with
        | none => none
        | some s5 =>
          match readPort s5 with
          | none => none
          | some (p, s6) => some (.v6 gs p scopePair.1, s6)

/-- `Parser::read_socket_addr`: IPv4 form first, IPv6 form otherwise. -/
def readSocketAddr (s : List Char) : Option (SockAddr × List Char) :=
  match readSocketV4 s with
  | some r => some r
  | none => readSocketV6 s

/-- `SocketAddr::from_str`: the whole string must be consumed. -/
def parseSocketAddr (s : String) : Option SockAddr :=
  match readSocketAddr s.data with
  | some (sa, []) => some sa
  | _ => none

/-- Little-endian decimal digits of `n`, with explicit fuel (first
argument) for structural termination. -/
def natDigitsRev : Nat → Nat → List Nat
  | 0, _ => []
  | fuel + 1, n => if n = 0 then [] else n % 10 :: natDigitsRev fuel (n / 10)

/-- Big-endian decimal digits of `n` (canonical: no leading zero, and `0`
is `[0]`). -/
def decDigits (n : Nat) : List Nat :=
  if n = 0 then [0] else (natDigitsRev n n).reverse

/-- The character of a decimal digit. -/
def dChar : Nat → Char
  | 0 => '0' | 1 => '1' | 2 => '2' | 3 => '3' | 4 => '4'
  | 5 => '5' | 6 => '6' | 7 => '7' | 8 => '8' | 9 => '9'
  | _ => '?'

/-- Canonical decimal representation of `n`, as `fmt::Display` for the
unsigned integer types prints it. -/
def decChars (n : Nat) : List Char := (decDigits n).map dChar

/-- Canonical decimal representation of `n`, as a string. -/
def decStr (n : Nat) : String := String.mk (decChars n)

/-- `fmt::Display` for `i64`. -/
def intStr (i : Int) : String :=
  if i < 0 then String.mk ('-' :: decChars i.natAbs) else String.mk (decChars i.natAbs)

/-- `fmt::Display` for `Ipv4Addr`: dotted decimal. -/
def ipv4Chars (x : Ipv4) : List Char :=
  decChars x.a ++ '.' :: decChars x.b ++ '.' :: decChars x.c ++ '.' :: decChars x.d

/-- `fmt::Display` for `SocketAddrV4`: `ip:port`. -/
def sockAddrV4Str (x : Ipv4) (p : Nat) : String :=
  String.mk (ipv4Chars x ++ ':' :: decChars p)

end RustNet

namespace PortScan

open RustNet

/-- `format!("{}:{}", real_target, real_port)`: the literal handed to the
`SocketAddr` parser. -/
def addrLiteral (host : String) (port : Int) : String :=
  host ++ ":" ++ intStr port

/-- `elapsed.try_into().unwrap_or_else(|_| 0)`: `u128 → i64`, `0` when the
value does not fit. -/
def elapsedToI64 (e : Nat) : Int :=
  if e ≤ 9223372036854775807 then (e : Int) else 0

/-- `PortScan::run`: extract the positionals, resolve the address literal,
scan, assemble the record.  Only casting and address-resolution failures
produce an error. -/
def run (args : CallArgs) (net : Option Conn) (elapsedNanos : Nat) :
    Except LabeledError ResultRecord :=
  match as_str args.target with
  | none => .error { msg := "cast error", label := "Target Address error" }
  | some real_target =>
    match as_int args.port with
    | none => .error { msg := "cast error", label := "Target Port error" }
    | some real_port =>
      match parseSocketAddr (addrLiteral real_target real_port) with
      | none =>
        .error { msg := "as `" ++ addrLiteral real_target real_port ++
                   "` got `invalid socket address syntax`. note: do not use domain name in address.",
                 label := "Address parser exception" }
      | some _address =>
        match scan args.timeoutFlag args.sendFlag args.receiveFlag net elapsedNanos with
        | .error e => .error e
        | .ok (is_open, elapsed) =>
          let str_result : String := if is_open then "Open" else "Closed"
          let elapsedVal : Int := elapsedToI64 elapsed
          .ok { address := real_target, port := real_port, result := str_result,
                is_open := is_open, elapsed := elapsedVal }

end PortScan

/-!
The spec-side meaning of "the payload's bytes, sent verbatim": a nushell /
Rust string is UTF-8, so its raw bytes are the UTF-8 encoding of its
characters.
-/

namespace SpecSide

/-- Modelled from the spec: the UTF-8 encoding of one character, the raw
bytes a string "sent verbatim as raw bytes" would contribute. -/
def utf8EncodeChar (c : Char) : List Nat :=
  let n := c.toNat
  if n < 128 then [n]
  else if n < 2048 then [192 + n / 64, 128 + n % 64]
  else if n < 65536 then [224 + n / 4096, 128 + (n / 64) % 64, 128 + n % 64]
  else [240 + n / 262144, 128 + (n / 4096) % 64, 128 + (n / 64) % 64, 128 + n % 64]

/-- Modelled from the spec: the raw byte sequence of a payload string. -/
def utf8Bytes (s : String) : List Nat :=
  (s.toList.map utf8EncodeChar).flatten

end SpecSide

/-!
Lemmas about the embedded address parser: greedy digit spans, canonicality
of parsed numbers, and parse/display round-trips for the IPv4 socket form.
-/

namespace RustNet

lemma spanMap_cons_some (f : Char → Option Nat) (c : Char) (cs : List Char)
    (d : Nat) (h : f c = some d) :
    spanMap f (c :: cs) = (d :: (spanMap f cs).1, (spanMap f cs).2) := by
  simp [spanMap, h]

lemma spanMap_cons_none (f : Char → Option Nat) (c : Char) (cs : List Char)
    (h : f c = none) : spanMap f (c :: cs) = ([], c :: cs) := by
  simp [spanMap, h]

lemma spanMap_decomp (f : Char → Option Nat) (g : Nat → Char)
    (hg : ∀ c d, f c = some d → g d = c) :
    ∀ s : List Char, s = (spanMap f s).1.map g ++ (spanMap f s).2 := by
  intro s
  induction s with
  | nil => rfl
  | cons c cs ih =>
    cases h : f c with
    | some d =>
      rw [spanMap_cons_some f c cs d h]
      simpa [hg c d h] using congrArg (c :: ·) ih
    | none => rw [spanMap_cons_none f c cs h]; simp

lemma spanMap_bound (f : Char → Option Nat) (B : Nat)
    (hf : ∀ c d, f c = some d → d < B) :
    ∀ s : List Char, ∀ d ∈ (spanMap f s).1, d < B := by
  intro s
  induction s with
  | nil => intro d hd; simp [spanMap] at hd
  | cons c cs ih =>
    intro d hd
    cases h : f c with
    | some e =>
      have hd2 : d ∈ e :: (spanMap f cs).1 := by
        rw [spanMap_cons_some f c cs e h] at hd
        exact hd
      rw [List.mem_cons] at hd2
      rcases hd2 with hd2 | hd2
      · exact hd2 ▸ hf c e h
      · exact ih d hd2
    | none => rw [spanMap_cons_none f c cs h] at hd; simp at hd

lemma spanMap_rest_head (f : Char → Option Nat) :
    ∀ s c, (spanMap f s).2.head? = some c → f c = none := by
  intro s
  induction s with
  | nil => intro c hc; simp [spanMap] at hc
  | cons a as ih =>
    intro c hc
    cases h : f a with
    | some d => rw [spanMap_cons_some f a as d h] at hc; exact ih c hc
    | none =>
      rw [spanMap_cons_none f a as h] at hc
      simp at hc
      exact hc ▸ h

lemma spanMap_stop (f : Char → Option Nat) (r : List Char)
    (hr : ∀ c, r.head? = some c → f c = none) : spanMap f r = ([], r) := by
  cases r with
  | nil => rfl
  | cons c t => exact spanMap_cons_none f c t (hr c rfl)

lemma spanMap_of_map (f : Char → Option Nat) (g : Nat → Char)
    (ds : List Nat) (r : List Char) (hds : ∀ d ∈ ds, f (g d) = some d) :
    spanMap f (ds.map g ++ r) = (ds ++ (spanMap f r).1, (spanMap f r).2) := by
  induction ds with
  | nil => simp
  | cons d tl ih =>
    have hd : f (g d) = some d := hds d (by simp)
    rw [List.map_cons, List.cons_append, spanMap_cons_some f (g d) _ d hd,
      ih fun e he => hds e (by simp [he])]
    simp

lemma char_eq_of_toNat_eq {c₁ c₂ : Char} (h : c₁.toNat = c₂.toNat) : c₁ = c₂ :=
  Char.eq_of_val_eq (UInt32.ext h)

lemma dChar_toNat (d : Nat) (hd : d < 10) : (dChar d).toNat = 48 + d := by
  interval_cases d <;> rfl

lemma digitVal_dChar (d : Nat) (hd : d < 10) : digitVal (dChar d) = some d := by
  interval_cases d <;> rfl

lemma digitVal_lt {c : Char} {d : Nat} (h : digitVal c = some d) : d < 10 := by
  unfold digitVal at h
  split at h
  · rename_i hc; injection h with h; omega
  · exact absurd h (by simp)

lemma digitVal_toNat {c : Char} {d : Nat} (h : digitVal c = some d) :
    c.toNat = 48 + d := by
  unfold digitVal at h
  split at h
  · rename_i hc; injection h with h; omega
  · exact absurd h (by simp)

lemma dChar_digitVal {c : Char} {d : Nat} (h : digitVal c = some d) :
    dChar d = c := by
  have hd : d < 10 := digitVal_lt h
  exact char_eq_of_toNat_eq (by rw [dChar_toNat d hd, digitVal_toNat h])

lemma foldl_horner (radix : Nat) :
    ∀ (ds : List Nat) (a : Nat),
      ds.foldl (fun x d => x * radix + d) a =
        a * radix ^ ds.length + Nat.ofDigits radix ds.reverse := by
  intro ds
  induction ds with
  | nil => intro a; simp
  | cons d tl ih =>
    intro a
    rw [List.foldl_cons, ih, List.reverse_cons, Nat.ofDigits_append]
    simp [Nat.ofDigits_cons, Nat.ofDigits_nil, pow_succ]
    ring

lemma valOf_eq_ofDigits (ds : List Nat) :
    valOf 10 ds = Nat.ofDigits 10 ds.reverse := by
  unfold valOf
  rw [foldl_horner]
  simp

lemma natDigitsRev_eq_digits :
    ∀ fuel n : Nat, n ≤ fuel → natDigitsRev fuel n = Nat.digits 10 n := by
  intro fuel
  induction fuel with
  | zero =>
    intro n h
    have : n = 0 := Nat.le_zero.mp h
    simp [natDigitsRev, this]
  | succ fuel ih =>
    intro n h
    by_cases hn : n = 0
    · simp [natDigitsRev, hn]
    · unfold natDigitsRev
      rw [if_neg hn, Nat.digits_def' (by norm_num : (1:ℕ) < 10) (Nat.pos_of_ne_zero hn)]
      have hdiv : n / 10 ≤ fuel := by
        have : n / 10 < n := Nat.div_lt_self (Nat.pos_of_ne_zero hn) (by norm_num)
        omega
      rw [ih (n / 10) hdiv]

lemma decDigits_of_ne_zero {n : Nat} (hn : n ≠ 0) :
    decDigits n = (Nat.digits 10 n).reverse := by
  unfold decDigits
  rw [if_neg hn, natDigitsRev_eq_digits n n le_rfl]

lemma valOf_decDigits (n : Nat) : valOf 10 (decDigits n) = n := by
  by_cases hn : n = 0
  · subst hn; rfl
  · rw [decDigits_of_ne_zero hn, valOf_eq_ofDigits, List.reverse_reverse,
      Nat.ofDigits_digits]

lemma decDigits_ne_nil (n : Nat) : decDigits n ≠ [] := by
  by_cases hn : n = 0
  · simp [hn, decDigits]
  · rw [decDigits_of_ne_zero hn]
    simpa using Nat.digits_ne_nil_iff_ne_zero.mpr hn

lemma decDigits_lt (n : Nat) : ∀ d ∈ decDigits n, d < 10 := by
  by_cases hn : n = 0
  · subst hn; intro d hd; simp [decDigits] at hd; omega
  · rw [decDigits_of_ne_zero hn]
    intro d hd
    exact Nat.digits_lt_base (by norm_num) (List.mem_reverse.mp hd)

lemma decDigits_head_zero {n : Nat} (h : (decDigits n).head? = some 0) :
    n = 0 := by
  by_cases hn : n = 0
  · exact hn
  · exfalso
    rw [decDigits_of_ne_zero hn, List.head?_reverse] at h
    have hne : Nat.digits 10 n ≠ [] := Nat.digits_ne_nil_iff_ne_zero.mpr hn
    rw [List.getLast?_eq_getLast _ hne] at h
    injection h with h
    exact Nat.getLast_digit_ne_zero 10 hn h

lemma decDigits_len_le_three {n : Nat} (h : n ≤ 255) :
    (decDigits n).length ≤ 3 := by
  by_cases hn : n = 0
  · simp [hn, decDigits]
  · rw [decDigits_of_ne_zero hn, List.length_reverse,
      Nat.digits_len 10 n (by norm_num) hn]
    have : n < 10 ^ 3 := by omega
    have := (Nat.lt_pow_iff_log_lt (by norm_num : 1 < 10) hn).mp this
    omega

lemma decDigits_valOf_canon (ds : List Nat) (h10 : ∀ d ∈ ds, d < 10)
    (hne : ds ≠ []) (hz : ds.head? = some 0 → ds.length = 1) :
    decDigits (valOf 10 ds) = ds := by
  rcases ds with _ | ⟨d, tl⟩
  · exact absurd rfl hne
  by_cases hd : d = 0
  · subst hd
    have hlen : tl = [] := by
      have := hz rfl
      simpa using this
    subst hlen
    rfl
  · have hLne : (d :: tl).reverse ≠ [] := by simp
    have h1 : (d :: tl).reverse.getLast? = some d := by
      rw [List.getLast?_reverse]
      rfl
    have w₂ : ∀ hh : (d :: tl).reverse ≠ [], ((d :: tl).reverse).getLast hh ≠ 0 := by
      intro hh
      rw [List.getLast?_eq_getLast _ hh] at h1
      injection h1 with h1
      rw [h1]
      exact hd
    have hdig : Nat.digits 10 (Nat.ofDigits 10 (d :: tl).reverse) = (d :: tl).reverse :=
      Nat.digits_ofDigits 10 (by norm_num) _
        (fun l hl => h10 l (List.mem_reverse.mp hl)) w₂
    have hv : valOf 10 (d :: tl) = Nat.ofDigits 10 (d :: tl).reverse :=
      valOf_eq_ofDigits _
    have hvne : valOf 10 (d :: tl) ≠ 0 := by
      intro h0
      rw [hv] at h0
      rw [h0] at hdig
      simp at hdig
    rw [decDigits_of_ne_zero hvne, hv, hdig, List.reverse_reverse]

lemma read_number_eq_some {f : Char → Option Nat} {radix : Nat}
    {maxDigits : Option Nat} {alz : Bool} {maxVal : Nat} {s : List Char}
    {v : Nat} {rest : List Char}
    (h : read_number f radix maxDigits alz maxVal s = some (v, rest)) :
    (spanMap f s).1 ≠ [] ∧
    digitLimitExceeded maxDigits (spanMap f s).1.length = false ∧
    leadingZeroViolated alz (spanMap f s).1 = false ∧
    valOf radix (spanMap f s).1 ≤ maxVal ∧
    v = valOf radix (spanMap f s).1 ∧ rest = (spanMap f s).2 := by
  unfold read_number at h
  split at h
  · exact absurd h (by simp)
  · split at h
    · exact absurd h (by simp)
    · split at h
      · exact absurd h (by simp)
      · split at h
        · exact absurd h (by simp)
        · rename_i h1 h2 h3 h4
          injection h with h
          injection h with hv hrest
          refine ⟨?_, by simpa using h2, by simpa using h3, by simpa using h4, hv.symm, hrest.symm⟩
          intro hnil
          exact h1 (by simp [hnil])

lemma leadingZero_cond {ds : List Nat}
    (h : leadingZeroViolated false ds = false)
    (hne : ds ≠ []) (hz : ds.head? = some 0) : ds.length = 1 := by
  unfold leadingZeroViolated at h
  simp [hz] at h
  rcases ds with _ | ⟨d, tl⟩
  · exact absurd rfl hne
  · simpa using h

lemma readU8_canon {s : List Char} {v : Nat} {rest : List Char}
    (h : readU8 s = some (v, rest)) :
    v ≤ 255 ∧ s = decChars v ++ rest ∧
    ∀ c, rest.head? = some c → digitVal c = none := by
  obtain ⟨hne, _hlim, hzero, hval, hv, hrest⟩ := read_number_eq_some h
  have h10 : ∀ d ∈ (spanMap digitVal s).1, d < 10 :=
    spanMap_bound digitVal 10 (fun c d hc => digitVal_lt hc) s
  have hz : (spanMap digitVal s).1.head? = some 0 →
      (spanMap digitVal s).1.length = 1 :=
    fun hh => leadingZero_cond hzero hne hh
  have hds : decDigits v = (spanMap digitVal s).1 := by
    rw [hv]
    exact decDigits_valOf_canon _ h10 hne hz
  refine ⟨by omega, ?_, ?_⟩
  · have hdec := spanMap_decomp digitVal dChar (fun c d hc => dChar_digitVal hc) s
    rw [hrest]
    unfold decChars
    rw [hds]
    exact hdec
  · intro c hc
    exact spanMap_rest_head digitVal s c (hrest ▸ hc)

lemma isEmpty_false_of_ne_nil {ds : List Nat} (h : ds ≠ []) :
    ds.isEmpty = false := by
  cases ds with
  | nil => exact absurd rfl h
  | cons d tl => rfl

lemma readU8_of_canon (v : Nat) (r : List Char) (hv : v ≤ 255)
    (hr : ∀ c, r.head? = some c → digitVal c = none) :
    readU8 (decChars v ++ r) = some (v, r) := by
  have hspan : spanMap digitVal (decChars v ++ r) = (decDigits v, r) := by
    unfold decChars
    rw [spanMap_of_map digitVal dChar (decDigits v) r
        (fun d hd => digitVal_dChar d (decDigits_lt v d hd)),
      spanMap_stop digitVal r hr]
    simp
  unfold readU8 read_number
  rw [hspan]
  have h1 : (decDigits v).isEmpty = false := isEmpty_false_of_ne_nil (decDigits_ne_nil v)
  have h2 : digitLimitExceeded (some 3) (decDigits v).length = false := by
    unfold digitLimitExceeded
    simpa using Nat.not_lt.mpr (decDigits_len_le_three hv)
  have h3 : leadingZeroViolated false (decDigits v) = false := by
    unfold leadingZeroViolated
    by_cases hz : (decDigits v).head? = some 0
    · have hv0 : v = 0 := decDigits_head_zero hz
      subst hv0
      rfl
    · simp [hz]
  have h4 : ¬ (255 < valOf 10 (decDigits v)) := by
    rw [valOf_decDigits]
    omega
  simp only [h1, h2, h3, Bool.false_eq_true, if_false, decide_eq_true_eq,
    valOf_decDigits]
  exact if_neg (by omega)

lemma readPort_of_canon (p : Nat) (r : List Char) (hp : p ≤ 65535)
    (hr : ∀ c, r.head? = some c → digitVal c = none) :
    readPort (decChars p ++ r) = some (p, r) := by
  have hspan : spanMap digitVal (decChars p ++ r) = (decDigits p, r) := by
    unfold decChars
    rw [spanMap_of_map digitVal dChar (decDigits p) r
        (fun d hd => digitVal_dChar d (decDigits_lt p d hd)),
      spanMap_stop digitVal r hr]
    simp
  unfold readPort read_number
  rw [hspan]
  have h1 : (decDigits p).isEmpty = false := isEmpty_false_of_ne_nil (decDigits_ne_nil p)
  have h4 : ¬ (65535 < valOf 10 (decDigits p)) := by
    rw [valOf_decDigits]
    omega
  simp only [h1, digitLimitExceeded, leadingZeroViolated, Bool.not_true,
    Bool.false_and, Bool.false_eq_true, if_false, decide_eq_true_eq,
    valOf_decDigits]
  exact if_neg (by omega)

lemma expectChar_eq_some {c : Char} {s r : List Char}
    (h : expectChar c s = some r) : s = c :: r := by
  cases s with
  | nil => exact absurd h (by simp [expectChar])
  | cons x t =>
    simp only [expectChar] at h
    split at h
    · rename_i hx
      injection h with h
      rw [hx, h]
    · exact absurd h (by simp)

lemma expectChar_cons (c : Char) (r : List Char) :
    expectChar c (c :: r) = some r := by
  simp [expectChar]

lemma digitVal_dot_none : ∀ t : List Char, ∀ c,
    ('.' :: t).head? = some c → digitVal c = none := by
  intro t c h
  simp at h
  rw [← h]
  rfl

lemma digitVal_colon_none : ∀ t : List Char, ∀ c,
    (':' :: t).head? = some c → digitVal c = none := by
  intro t c h
  simp at h
  rw [← h]
  rfl

lemma readIpv4_canon {s : List Char} {x : Ipv4} {rest : List Char}
    (h : readIpv4 s = some (x, rest)) :
    s = ipv4Chars x ++ rest ∧
    x.a ≤ 255 ∧ x.b ≤ 255 ∧ x.c ≤ 255 ∧ x.d ≤ 255 ∧
    (∀ c, rest.head? = some c → digitVal c = none) := by
  unfold readIpv4 at h
  cases h1 : readU8 s with
  | none =>
    simp only [h1, Option.none_bind] at h
    exact Option.noConfusion h
  | some w1 =>
    obtain ⟨va, s1⟩ := w1
    simp only [h1, Option.some_bind] at h
    cases h2 : expectChar '.' s1 with
    | none =>
  simp only [h2, Option.none_bind] at h
  exact Option.noConfusion h
    | some s2 =>
      simp only [h2, Option.some_bind] at h
      cases h3 : readU8 s2 with
      | none =>
  simp only [h3, Option.none_bind] at h
  exact Option.noConfusion h
      | some w2 =>
        obtain ⟨vb, s3⟩ := w2
        simp only [h3, Option.some_bind] at h
        cases h4 : expectChar '.' s3 with
        | none =>
  simp only [h4, Option.none_bind] at h
  exact Option.noConfusion h
        | some s4 =>
          simp only [h4, Option.some_bind] at h
          cases h5 : readU8 s4 with
          | none =>
  simp only [h5, Option.none_bind] at h
  exact Option.noConfusion h
          | some w3 =>
            obtain ⟨vc, s5⟩ := w3
            simp only [h5, Option.some_bind] at h
            cases h6 : expectChar '.' s5 with
            | none =>
  simp only [h6, Option.none_bind] at h
  exact Option.noConfusion h
            | some s6 =>
              simp only [h6, Option.some_bind] at h
              cases h7 : readU8 s6 with
              | none =>
  simp only [h7, Option.none_bind] at h
  exact Option.noConfusion h
              | some w4 =>
                obtain ⟨vd, s7⟩ := w4
                simp only [h7, Option.some_bind, Option.some.injEq,
                  Prod.mk.injEq] at h
                obtain ⟨hx, hrest⟩ := h
                subst hrest
                obtain ⟨ha, hsa, _⟩ := readU8_canon h1
                obtain ⟨hb, hsb, _⟩ := readU8_canon h3
                obtain ⟨hc, hsc, _⟩ := readU8_canon h5
                obtain ⟨hd, hsd, hrest7⟩ := readU8_canon h7
                rw [← hx]
                refine ⟨?_, ha, hb, hc, hd, hrest7⟩
                rw [hsa, expectChar_eq_some h2, hsb, expectChar_eq_some h4,
                  hsc, expectChar_eq_some h6, hsd]
                simp [ipv4Chars]

lemma readIpv4_of_canon (x : Ipv4) (r : List Char)
    (ha : x.a ≤ 255) (hb : x.b ≤ 255) (hc : x.c ≤ 255) (hd : x.d ≤ 255)
    (hr : ∀ c, r.head? = some c → digitVal c = none) :
    readIpv4 (ipv4Chars x ++ r) = some (x, r) := by
  obtain ⟨va, vb, vc, vd⟩ := x
  have hshape : ipv4Chars ⟨va, vb, vc, vd⟩ ++ r =
      decChars va ++ '.' :: (decChars vb ++ '.' :: (decChars vc ++ '.' ::
        (decChars vd ++ r))) := by
    simp [ipv4Chars]
  rw [hshape]
  unfold readIpv4
  simp only [readU8_of_canon va _ ha (digitVal_dot_none _), Option.some_bind,
    expectChar_cons, readU8_of_canon vb _ hb (digitVal_dot_none _),
    readU8_of_canon vc _ hc (digitVal_dot_none _),
    readU8_of_canon vd _ hd hr]

lemma readPort_of_canon_nil (p : Nat) (hp : p ≤ 65535) :
    readPort (decChars p) = some (p, []) := by
  have h := readPort_of_canon p [] hp (by intro c hcc; simp at hcc)
  rwa [List.append_nil] at h

lemma readSocketV4_of_canon (x : Ipv4) (p : Nat)
    (ha : x.a ≤ 255) (hb : x.b ≤ 255) (hc : x.c ≤ 255) (hd : x.d ≤ 255)
    (hp : p ≤ 65535) :
    readSocketV4 (ipv4Chars x ++ ':' :: decChars p) = some (.v4 x p, []) := by
  unfold readSocketV4
  simp only [readIpv4_of_canon x _ ha hb hc hd (digitVal_colon_none _),
    Option.some_bind, expectChar_cons, readPort_of_canon_nil p hp]

lemma parseIpAddr_v4_inv {h : String} {x : Ipv4}
    (hp : parseIpAddr h = some (.v4 x)) :
    readIpv4 h.data = some (x, []) := by
  cases h4 : readIpv4 h.data with
  | some w =>
    obtain ⟨ip, r⟩ := w
    have hA : readIpAddr h.data = some (.v4 ip, r) := by
      unfold readIpAddr
      rw [h4]
    cases r with
    | nil =>
      have hP : parseIpAddr h = some (.v4 ip) := by
        unfold parseIpAddr
        rw [hA]
      rw [hP] at hp
      simp only [Option.some.injEq, IpAddrLit.v4.injEq] at hp
      subst hp
      rfl
    | cons c t =>
      have hP : parseIpAddr h = none := by
        unfold parseIpAddr
        rw [hA]
      rw [hP] at hp
      exact Option.noConfusion hp
  | none =>
    cases h6 : readIpv6 h.data with
    | some w =>
      obtain ⟨gs, r⟩ := w
      have hA : readIpAddr h.data = some (.v6 gs, r) := by
        unfold readIpAddr
        rw [h4, h6]
      cases r with
      | nil =>
        have hP : parseIpAddr h = some (.v6 gs) := by
          unfold parseIpAddr
          rw [hA]
        rw [hP] at hp
        simp at hp
      | cons c t =>
        have hP : parseIpAddr h = none := by
          unfold parseIpAddr
          rw [hA]
        rw [hP] at hp
        exact Option.noConfusion hp
    | none =>
      have hA : readIpAddr h.data = none := by
        unfold readIpAddr
        rw [h4, h6]
      have hP : parseIpAddr h = none := by
        unfold parseIpAddr
        rw [hA]
      rw [hP] at hp
      exact Option.noConfusion hp

lemma string_data_append (a b : String) : (a ++ b).data = a.data ++ b.data := rfl

lemma string_eq_of_data {a b : String} (h : a.data = b.data) : a = b := by
  cases a
  cases b
  exact congrArg String.mk h

lemma decStr_data (p : Nat) : (decStr p).data = decChars p := rfl

lemma readSocketAddr_of_v4 {s : List Char} {sa : SockAddr} {r : List Char}
    (h : readSocketV4 s = some (sa, r)) : readSocketAddr s = some (sa, r) := by
  unfold readSocketAddr
  rw [h]

lemma parseSocketAddr_of_v4_nil {s : String} {sa : SockAddr}
    (h : readSocketV4 s.data = some (sa, [])) : parseSocketAddr s = some sa := by
  unfold parseSocketAddr
  rw [readSocketAddr_of_v4 h]

lemma parseSocketAddr_v4_roundtrip {h : String} {x : Ipv4} (p : Nat)
    (hdata : h.data = ipv4Chars x)
    (ha : x.a ≤ 255) (hb : x.b ≤ 255) (hc : x.c ≤ 255) (hd : x.d ≤ 255)
    (hp : p ≤ 65535) :
    parseSocketAddr (h ++ ":" ++ decStr p) = some (.v4 x p) := by
  apply parseSocketAddr_of_v4_nil
  have hform : (h ++ ":" ++ decStr p).data = ipv4Chars x ++ ':' :: decChars p := by
    rw [string_data_append, string_data_append, hdata, decStr_data]
    simp
  rw [hform]
  exact readSocketV4_of_canon x p ha hb hc hd hp

lemma sockAddrV4Str_eq {h : String} {x : Ipv4} (p : Nat)
    (hdata : h.data = ipv4Chars x) :
    sockAddrV4Str x p = h ++ ":" ++ decStr p := by
  apply string_eq_of_data
  show ipv4Chars x ++ ':' :: decChars p = (h ++ ":" ++ decStr p).data
  rw [string_data_append, string_data_append, hdata, decStr_data]
  simp

lemma intStr_ofNat (p : Nat) : intStr (p : Int) = decStr p := by
  unfold intStr decStr
  rw [if_neg (by exact Int.not_lt.mpr (Int.natCast_nonneg p))]
  simp

end RustNet

namespace PortScan

open RustNet

lemma scan_eval (tf sf rf : Option Value) (net : Option Conn) (e : Nat) :
    scan tf sf rf net e =
      Except.ok (check_connection net (durationNanos tf) (sendDataOf sf)
        (receiveCountOf rf), e) := rfl

lemma run_eval_ok (h : String) (p : Int) (tf sf rf : Option Value)
    (net : Option Conn) (e : Nat) (sa : SockAddr)
    (hpa : parseSocketAddr (addrLiteral h p) = some sa) :
    run ⟨.string h, .int p, tf, sf, rf⟩ net e =
      Except.ok
        { address := h, port := p,
          result :=
            if check_connection net (durationNanos tf) (sendDataOf sf)
                (receiveCountOf rf) then "Open" else "Closed",
          is_open :=
            check_connection net (durationNanos tf) (sendDataOf sf)
              (receiveCountOf rf),
          elapsed := elapsedToI64 e } := by
  unfold run
  simp only [as_str, as_int, hpa, scan_eval]

lemma run_eval_err (h : String) (p : Int) (tf sf rf : Option Value)
    (net : Option Conn) (e : Nat)
    (hpa : parseSocketAddr (addrLiteral h p) = none) :
    run ⟨.string h, .int p, tf, sf, rf⟩ net e =
      Except.error
        { msg := "as `" ++ addrLiteral h p ++
            "` got `invalid socket address syntax`. note: do not use domain name in address.",
          label := "Address parser exception" } := by
  unfold run
  simp only [as_str, as_int, hpa]

lemma utf8EncodeChar_ascii {c : Char} (h : c.toNat < 128) :
    SpecSide.utf8EncodeChar c = [c.toNat] := by
  unfold SpecSide.utf8EncodeChar
  rw [if_pos h]

lemma sendBytes_list_eq_utf8 (l : List Char) (h : ∀ c ∈ l, c.toNat < 128) :
    l.map (fun c => c.toNat % 256) = (l.map SpecSide.utf8EncodeChar).flatten := by
  induction l with
  | nil => rfl
  | cons c t ih =>
    have hc := h c (by simp)
    rw [List.map_cons, List.map_cons, List.flatten_cons,
      utf8EncodeChar_ascii hc, ih fun d hd => h d (by simp [hd])]
    simp [Nat.mod_eq_of_lt (by omega : c.toNat < 256)]

/-- Claim C1 (code bug): the spec requires that when
`expectedReceiveByteCount = N > 0` and the peer closes the stream after
fewer than `N` bytes, the probe is Closed ("no partial-byte acceptance').
The code instead classifies it Open: `bytes().take(N).collect::<Result<...>>`
returns `Ok` with a short vector on early EOF.  Evaluated here at `N = 4`
with a peer that sends 2 bytes and then closes: `check_connection` returns
`true`. -/
theorem C1_short_read_accepted_as_open :
    check_connection
      (some { writeOk := true, setReadTimeoutOk := true,
              incoming := [ReadItem.byte 104, ReadItem.byte 105] })
      1000000000 none 4 = true ∧
    collectTake 4 [ReadItem.byte 104, ReadItem.byte 105] = some [104, 105] :=
  ⟨rfl, rfl⟩

/-- Claim C2 counterexample: the payload is not sent verbatim for non-ASCII
content.  For the one-character payload `"€"` (U+20AC) the code sends the
single truncated byte `172`, while the string's raw (UTF-8) bytes are
`[226, 130, 172]`. -/
theorem C2_counterexample :
    sendDataOf (some (.string "€")) = some [172] ∧
    SpecSide.utf8Bytes "€" = [226, 130, 172] ∧
    sendBytes "€" ≠ SpecSide.utf8Bytes "€" :=
  ⟨rfl, rfl, by decide⟩

/-- Claim C2 (amended): the byte sequence handed to `write_all` is the
payload's characters each truncated to the low 8 bits of their Unicode
scalar value; for payloads whose characters are all ASCII this coincides
with the payload's raw UTF-8 bytes (verbatim transmission). -/
theorem C2_payload_bytes (val : String) :
    sendDataOf (some (.string val)) = some (sendBytes val) ∧
    sendBytes val = val.toList.map (fun c => c.toNat % 256) ∧
    ((∀ c ∈ val.toList, c.toNat < 128) →
      sendBytes val = SpecSide.utf8Bytes val) := by
  refine ⟨rfl, rfl, fun h => ?_⟩
  unfold sendBytes SpecSide.utf8Bytes
  exact sendBytes_list_eq_utf8 val.toList h

/-- Witness for C2 at the concrete ASCII payload `"ping"`. -/
theorem C2_payload_bytes_witness :
    sendDataOf (some (.string "ping")) = some (sendBytes "ping") ∧
    (∀ c ∈ ("ping" : String).toList, c.toNat < 128) ∧
    sendBytes "ping" = SpecSide.utf8Bytes "ping" := by
  have h := C2_payload_bytes "ping"
  exact ⟨h.1, by decide, h.2.2 (by decide)⟩

end PortScan

namespace RustNet

/-- Claim C3 counterexample: `"::1"` is a valid literal IP address (IPv6)
and `80` a valid port, yet resolving `"::1:80"` fails — the IPv6 socket
form requires brackets, so the claim does not hold for IPv6 hosts. -/
theorem C3_counterexample :
    parseIpAddr "::1" = some (.v6 [0, 0, 0, 0, 0, 0, 0, 1]) ∧
    (80 : Nat) ≤ 65535 ∧
    parseSocketAddr ("::1" ++ ":" ++ decStr 80) = none :=
  ⟨rfl, by omega, rfl⟩

/-- Claim C3 (amended to IPv4): for every host string that is a valid
literal IPv4 address and every port in `[0, 65535]`, resolution of the
concatenated literal succeeds, and the resolved address's display form
round-trips to `host ++ ":" ++ port`. -/
theorem C3_resolve_roundtrip_ipv4 (h : String) (x : Ipv4) (p : Nat)
    (hh : parseIpAddr h = some (.v4 x)) (hp : p ≤ 65535) :
    parseSocketAddr (h ++ ":" ++ decStr p) = some (.v4 x p) ∧
    sockAddrV4Str x p = h ++ ":" ++ decStr p ∧
    PortScan.addrLiteral h (p : Int) = h ++ ":" ++ decStr p := by
  have h4 := parseIpAddr_v4_inv hh
  obtain ⟨hdata, ha, hb, hc, hd, _⟩ := readIpv4_canon h4
  rw [List.append_nil] at hdata
  refine ⟨parseSocketAddr_v4_roundtrip p hdata ha hb hc hd hp,
    sockAddrV4Str_eq p hdata, ?_⟩
  unfold PortScan.addrLiteral
  rw [intStr_ofNat]

/-- Witness for C3 at the concrete host `"8.8.8.8"` and port `53`. -/
theorem C3_resolve_roundtrip_ipv4_witness :
    parseIpAddr "8.8.8.8" = some (.v4 ⟨8, 8, 8, 8⟩) ∧
    (53 : Nat) ≤ 65535 ∧
    parseSocketAddr ("8.8.8.8" ++ ":" ++ decStr 53) = some (.v4 ⟨8, 8, 8, 8⟩ 53) ∧
    sockAddrV4Str ⟨8, 8, 8, 8⟩ 53 = "8.8.8.8" ++ ":" ++ decStr 53 := by
  have h := C3_resolve_roundtrip_ipv4 "8.8.8.8" ⟨8, 8, 8, 8⟩ 53 rfl (by omega)
  exact ⟨rfl, by omega, h.1, h.2.1⟩

end RustNet

namespace PortScan

open RustNet

/-- Claim C4: for every host/port pair whose concatenation does not parse
as a literal IP-address-plus-port, `run` fails with the labeled address
error carrying the attempted literal, the parser's message, and the advice
against domain names — and, since the result is the same for every network
oracle `net`, no connection attempt is performed. -/
theorem C4_address_error (h : String) (p : Int) (tf sf rf : Option Value)
    (net : Option Conn) (e : Nat)
    (hpa : parseSocketAddr (addrLiteral h p) = none) :
    run ⟨.string h, .int p, tf, sf, rf⟩ net e =
      Except.error
        { msg := "as `" ++ addrLiteral h p ++
            "` got `invalid socket address syntax`. note: do not use domain name in address.",
          label := "Address parser exception" } :=
  run_eval_err h p tf sf rf net e hpa

/-- Witness for C4 at the domain name `"example.com"`, port `80`. -/
theorem C4_address_error_witness :
    parseSocketAddr (addrLiteral "example.com" 80) = none ∧
    run ⟨.string "example.com", .int 80, none, none, none⟩ none 0 =
      Except.error
        { msg := "as `" ++ addrLiteral "example.com" 80 ++
            "` got `invalid socket address syntax`. note: do not use domain name in address.",
          label := "Address parser exception" } :=
  ⟨rfl, C4_address_error "example.com" 80 none none none none 0 rfl⟩

/-- Claim C5: every network-level failure mode — connect failure/timeout
(`net = none`), write failure, `set_read_timeout` failure, read error or
deadline expiry (an `ioError` item within the first `n` items) — makes
`check_connection` return `false`, and once the address has resolved,
`run` always returns a record (never a propagated error). -/
theorem C5_failures_absorbed :
    (∀ d s n, check_connection none d s n = false) ∧
    (∀ (st : Conn) d data n, st.writeOk = false →
      check_connection (some st) d (some data) n = false) ∧
    (∀ (st : Conn) d s n, st.setReadTimeoutOk = false →
      check_connection (some st) d s n = false) ∧
    (∀ (st : Conn) d s n, n ≠ 0 → collectTake n st.incoming = none →
      check_connection (some st) d s n = false) ∧
    (∀ (h : String) (p : Int) (tf sf rf : Option Value) (net : Option Conn)
        (e : Nat) (sa : SockAddr),
      parseSocketAddr (addrLiteral h p) = some sa →
      ∃ rec, run ⟨.string h, .int p, tf, sf, rf⟩ net e = Except.ok rec) := by
  refine ⟨fun d s n => rfl, ?_, ?_, ?_, ?_⟩
  · intro st d data n hw
    simp [check_connection, hw]
  · intro st d s n hrt
    cases s with
    | none => simp [check_connection, hrt]
    | some data => cases hwk : st.writeOk <;> simp [check_connection, hrt, hwk]
  · intro st d s n hn hc
    obtain ⟨m, rfl⟩ := Nat.exists_eq_succ_of_ne_zero hn
    cases s with
    | none =>
      cases hrt : st.setReadTimeoutOk <;> simp [check_connection, hrt, hc]
    | some data =>
      cases hwk : st.writeOk <;> cases hrt : st.setReadTimeoutOk <;>
        simp [check_connection, hwk, hrt, hc]
  · intro h p tf sf rf net e sa hpa
    exact ⟨_, run_eval_ok h p tf sf rf net e sa hpa⟩

/-- Witness for C5: one concrete instance of each failure mode, and one
resolved probe that yields a record. -/
theorem C5_failures_absorbed_witness :
    check_connection none 5 none 0 = false ∧
    check_connection (some ⟨false, true, []⟩) 5 (some [1]) 0 = false ∧
    check_connection (some ⟨true, false, []⟩) 5 none 0 = false ∧
    ((3 : Nat) ≠ 0 ∧ collectTake 3 [ReadItem.ioError] = none ∧
      check_connection (some ⟨true, true, [ReadItem.ioError]⟩) 5 none 3 = false) ∧
    (parseSocketAddr (addrLiteral "1.2.3.4" 80) = some (.v4 ⟨1, 2, 3, 4⟩ 80) ∧
      ∃ rec, run ⟨.string "1.2.3.4", .int 80, none, none, none⟩ none 0 =
        Except.ok rec) := by
  have h := C5_failures_absorbed
  exact ⟨h.1 5 none 0, h.2.1 ⟨false, true, []⟩ 5 [1] 0 rfl,
    h.2.2.1 ⟨true, false, []⟩ 5 none 0 rfl,
    ⟨by omega, rfl, h.2.2.2.1 ⟨true, true, [ReadItem.ioError]⟩ 5 none 3 (by omega) rfl⟩,
    ⟨rfl, h.2.2.2.2 "1.2.3.4" 80 none none none none 0 (.v4 ⟨1, 2, 3, 4⟩ 80) rfl⟩⟩

/-- Claim C6 counterexample: the elapsed measurement is not always carried
through — a measurement of `2^63` nanoseconds does not fit `i64`, and the
record carries `0` instead. -/
theorem C6_counterexample :
    run ⟨.string "1.2.3.4", .int 80, none, none, none⟩ none 9223372036854775808 =
      Except.ok { address := "1.2.3.4", port := 80, result := "Closed",
                  is_open := false, elapsed := 0 } ∧
    (9223372036854775808 : Nat) ≠ 0 :=
  ⟨rfl, by omega⟩

/-- Claim C6 (amended): in every record `run` produces, `result` is
`"Open"` iff `is_open` is `true` and `"Closed"` iff it is `false`; the
`address` and `port` fields echo the caller's original host string and port
integer; and the elapsed measurement is carried through whenever it fits a
signed 64-bit integer (it is replaced by `0` otherwise). -/
theorem C6_record_fields (h : String) (p : Int) (tf sf rf : Option Value)
    (net : Option Conn) (e : Nat) (rec : ResultRecord)
    (hrun : run ⟨.string h, .int p, tf, sf, rf⟩ net e = Except.ok rec) :
    (rec.result = "Open" ↔ rec.is_open = true) ∧
    (rec.result = "Closed" ↔ rec.is_open = false) ∧
    rec.address = h ∧ rec.port = p ∧ rec.elapsed = elapsedToI64 e ∧
    (e ≤ 9223372036854775807 → rec.elapsed = (e : Int)) := by
  cases hpa : parseSocketAddr (addrLiteral h p) with
  | none =>
    rw [run_eval_err h p tf sf rf net e hpa] at hrun
    exact absurd hrun (by simp)
  | some sa =>
    rw [run_eval_ok h p tf sf rf net e sa hpa] at hrun
    injection hrun with hrun
    subst hrun
    cases hb : check_connection net (durationNanos tf) (sendDataOf sf)
        (receiveCountOf rf) <;>
      exact ⟨by simp, by simp, rfl, rfl, rfl,
        fun he => by unfold elapsedToI64; rw [if_pos he]⟩

/-- Witness for C6 at a concrete refused probe with elapsed `7` ns. -/
theorem C6_record_fields_witness :
    ∃ rec : ResultRecord,
      run ⟨.string "1.2.3.4", .int 80, none, none, none⟩ none 7 = Except.ok rec ∧
      (rec.result = "Closed" ↔ rec.is_open = false) ∧
      rec.address = "1.2.3.4" ∧ rec.port = 80 ∧ rec.elapsed = (7 : Int) := by
  have h := C6_record_fields "1.2.3.4" 80 none none none none 7 _ rfl
  exact ⟨_, rfl, h.2.1, h.2.2.1, h.2.2.2.1, h.2.2.2.2.2 (by omega)⟩

/-- Claim C7: the effective probe duration is the 60-second default
(`60000000000` ns) when the timeout flag is absent, and the absolute value
of the supplied duration when present; a negative timeout is never
rejected (`scan` still returns `Ok`). -/
theorem C7_timeout_semantics :
    DEFAULT_TIMEOUT = 60000000000 ∧
    durationNanos none = 60000000000 ∧
    (∀ v : Int, durationNanos (some (.duration v)) = v.natAbs) ∧
    (∀ v : Int, ∃ r, scan (some (.duration v)) none none none 0 = Except.ok r) :=
  ⟨rfl, rfl, fun _ => rfl, fun _ => ⟨_, rfl⟩⟩

/-- Claim C8 counterexample: with `expectedReceiveByteCount = 0`, a
successful connect (no payload requested) is not always classified open —
a `set_read_timeout` failure still yields `false`. -/
theorem C8_counterexample :
    check_connection
      (some { writeOk := true, setReadTimeoutOk := false, incoming := [] })
      5 none 0 = false := rfl

/-- Claim C8 (amended): with `expectedReceiveByteCount = 0`, a successful
connect plus a successful payload write (when a payload was supplied) plus
a successful `set_read_timeout` classify the probe open, and no read is
attempted (the result does not depend on the incoming stream). -/
theorem C8_zero_receive_open (st : Conn) (d : Nat) (s : Option (List Nat))
    (hrt : st.setReadTimeoutOk = true)
    (hw : ∀ data, s = some data → st.writeOk = true) :
    check_connection (some st) d s 0 = true ∧
    (∀ l₁ l₂ : List ReadItem,
      check_connection (some { st with incoming := l₁ }) d s 0 =
      check_connection (some { st with incoming := l₂ }) d s 0) := by
  constructor
  · cases s with
    | none => simp [check_connection, hrt]
    | some data => simp [check_connection, hrt, hw data rfl]
  · intro l₁ l₂
    rfl

/-- Witness for C8 at a concrete open connection carrying a payload. -/
theorem C8_zero_receive_open_witness :
    check_connection (some ⟨true, true, [ReadItem.byte 1]⟩) 5 (some [2]) 0 = true ∧
    check_connection (some ⟨true, true, []⟩) 5 (some [2]) 0 =
      check_connection (some ⟨true, true, [ReadItem.ioError]⟩) 5 (some [2]) 0 := by
  have h := C8_zero_receive_open ⟨true, true, [ReadItem.byte 1]⟩ 5 (some [2]) rfl
    (fun data _ => rfl)
  exact ⟨h.1, h.2 [] [ReadItem.ioError]⟩

/-- Claim C9: when the timeout flag is supplied but its value cannot be
converted to a duration, the probe does not fail — the timeout silently
falls back to the 60-second default and `scan` proceeds to return `Ok`. -/
theorem C9_invalid_timeout_fallback (v : Value) (hv : as_duration v = .error ()) :
    timeoutOf (some v) = DEFAULT_TIMEOUT ∧
    durationNanos (some v) = 60000000000 ∧
    (∀ sf rf net e, ∃ r, scan (some v) sf rf net e = Except.ok r) := by
  have ht : timeoutOf (some v) = DEFAULT_TIMEOUT := by
    simp only [timeoutOf, hv]
  refine ⟨ht, ?_, fun sf rf net e => ⟨_, rfl⟩⟩
  unfold durationNanos
  rw [ht]
  rfl

/-- Witness for C9 at the non-duration flag value `"1sec"` (a string). -/
theorem C9_invalid_timeout_fallback_witness :
    as_duration (.string "1sec") = .error () ∧
    timeoutOf (some (.string "1sec")) = DEFAULT_TIMEOUT ∧
    durationNanos (some (.string "1sec")) = 60000000000 := by
  have h := C9_invalid_timeout_fallback (.string "1sec") rfl
  exact ⟨rfl, h.1, h.2.1⟩

/-- Claim C10: a receive-byte-count flag holding a negative integer is
normalized to its absolute value, never rejected; a non-integer or absent
flag value yields `0`. -/
theorem C10_receive_count_normalization :
    (∀ n : Int, receiveCountOf (some (.int n)) = n.natAbs) ∧
    receiveCountOf (some (.int (-5))) = 5 ∧
    receiveCountOf none = 0 ∧
    (∀ s, receiveCountOf (some (.string s)) = 0) ∧
    (∀ d, receiveCountOf (some (.duration d)) = 0) ∧
    receiveCountOf (some .other) = 0 :=
  ⟨fun _ => rfl, rfl, rfl, fun _ => rfl, fun _ => rfl, rfl⟩

end PortScan
